import Mathlib

/-!
# Player API (`server.go`): a shallow embedding and its checked properties

The Go program keeps a `map[string]Player` behind a `sync.Mutex` and serves it over
HTTP.  This file embeds

* the data model (`Player`, the store map, the response writer of `net/http`),
* the library calls the handlers rely on (`strings.Split`, `fmt.Sprintf("%d", _)`,
  `encoding/json`, header canonicalisation),
* the handlers `players`, `get`, `getRandomPlayer`, `getPlayer` and `post`,

and then states the properties of the handlers as theorems.  The admin page
(`adminPortal`) and the route table of `main` take no part in these properties and are
not embedded.

Conventions of the embedding:

* Go strings and byte slices are Lean strings (sequences of Unicode scalar values).
* A handler is a function on a call state `Call` (receiver, response writer, log of
  guard and map events).  Handlers run one at a time; the embedded `sync.Mutex` is
  visible through the `lock` / `unlock` events of the log.
* What Go leaves to the environment is an explicit input `Env`: the clock reading of
  `time.Now().UnixNano()`, the order in which `range` walks the map, and the value
  drawn by `rand.Intn`.
-/

namespace PlayerAPI

/-! ## Data model -/

/-- API version segment: `var version string = "v1"`. -/
def version : String := "v1"

/-- Record `type Player struct`; `Age` is a Go `int` (64 bits). -/
structure Player where
  FirstName : String
  LastName : String
  Sport : String
  Gender : String
  Age : Int
  Country : String
  ID : String
  deriving DecidableEq

/-- Zero value of `Player` (`var player Player`, the cells of `make([]Player, n)`). -/
def Player.zero : Player := ⟨"", "", "", "", 0, "", ""⟩

/-- The map `store map[string]Player`, as the list of its entries. A Go map has at most
one entry per key; `mapStore` keeps that shape. -/
abbrev Store := List (String × Player)

/-- Map read `v, ok := m[k]`: `none` stands for `ok == false`. -/
def mapLoad : Store → String → Option Player
  | [], _ => none
  | (k', v) :: rest, k => if k' = k then some v else mapLoad rest k

/-- Map write `m[k] = v`: replaces the entry of `k` when there is one, adds it otherwise. -/
def mapStore : Store → String → Player → Store
  | [], k, v => [(k, v)]
  | (k', v') :: rest, k, v =>
    if k' = k then (k, v) :: rest else (k', v') :: mapStore rest k v

/-- Keys of the map. -/
def mapKeys (m : Store) : List String := m.map Prod.fst

/-- Entries in the order a `for ... range m` loop visits them. Go leaves the order
unspecified, so the order is picked by `order` among all arrangements of the entries. -/
def mapRange (m : Store) (order : Nat) : List (String × Player) :=
  m.permutations.getD (order % m.permutations.length) m

/-- Receiver `type playerHandlers struct`. The embedded `sync.Mutex` has no field here: a
handler's use of it is recorded in the event log of the call. -/
structure playerHandlers where
  store : Store
  deriving DecidableEq

/-- Constructor `newPlayerHandlers`: the store starts as the empty map. -/
def newPlayerHandlers : playerHandlers := ⟨[]⟩

/-! ## Library calls: `strings`, `fmt` -/

/-- Pieces of a character sequence between occurrences of `sep`
(one more piece than there are separators). -/
def splitChars (sep : Char) : List Char → List (List Char)
  | [] => [[]]
  | c :: cs =>
    if c = sep then [] :: splitChars sep cs
    else
      match splitChars sep cs with
      | [] => [[c]]
      | piece :: pieces => (c :: piece) :: pieces

namespace strings

/-- Call `strings.Split(s, sep)` for a one-character separator. -/
def Split (s : String) (sep : Char) : List String :=
  (splitChars sep s.data).map String.mk

end strings

/-- Rendering `fmt.Sprintf("%d", t)` of a signed integer: decimal digits, with a leading
minus sign for a negative number. -/
def formatInt : Int → String
  | Int.ofNat n => ⟨Nat.toDigits 10 n⟩
  | Int.negSucc n => ⟨'-' :: Nat.toDigits 10 (n + 1)⟩

/-- Result of `fmt.Sprintf("/%s/players/%s", version, target)`. -/
def playerPath (target : String) : String :=
  "/" ++ version ++ "/players/" ++ target

/-! ## Library calls: `net/http` response writer and headers -/

/-- Letters, digits and the punctuation allowed in a header field name. -/
def validHeaderFieldChar (c : Char) : Bool :=
  c.isAlphanum || [33, 35, 36, 37, 38, 39, 42, 43, 45, 46, 94, 95, 96, 124, 126].contains c.toNat

/-- Canonical casing of a valid header name: the first letter and every letter after a
hyphen in upper case, the others in lower case. -/
def canonicalChars : Bool → List Char → List Char
  | _, [] => []
  | upper, c :: cs =>
    (if upper then c.toUpper else c.toLower) :: canonicalChars (c = '-') cs

/-- Function `textproto.CanonicalMIMEHeaderKey`, applied by `Header.Add` and `Header.Get`:
a name holding a character that is not allowed in a field name is left as it is. -/
def canonicalMIMEHeaderKey (k : String) : String :=
  if k.data.all validHeaderFieldChar then ⟨canonicalChars true k.data⟩ else k

/-- Header map, as the list of its (canonical key, value) lines in the order added. -/
abbrev Header := List (String × String)

/-- Call `Header.Add(key, value)`. -/
def Header.add (h : Header) (key value : String) : Header :=
  h ++ [(canonicalMIMEHeaderKey key, value)]

/-- Values stored under a key. -/
def Header.values (h : Header) (key : String) : List String :=
  (h.filter fun kv => kv.1 = canonicalMIMEHeaderKey key).map Prod.snd

/-- Call `Header.Get(key)`: the first value stored under the key, `""` when there is none. -/
def Header.get (h : Header) (key : String) : String :=
  (Header.values h key).headD ""

/-- State of an `http.ResponseWriter`: `header` is the live map returned by `Header()`;
the first `WriteHeader` fixes the status line and the headers that are sent (`sent`).
Lines the server adds by itself (date, length, a guessed content type) are left out. -/
structure ResponseWriter where
  header : Header
  wroteHeader : Bool
  status : Nat
  sent : Header
  body : String
  deriving DecidableEq

/-- Response writer handed to a handler at the start of a request. -/
def ResponseWriter.new : ResponseWriter := ⟨[], false, 0, [], ""⟩

/-- Call `w.Header().Add(key, value)`. After `WriteHeader` the live map still changes, the
headers already sent do not. -/
def ResponseWriter.addHeader (w : ResponseWriter) (key value : String) : ResponseWriter :=
  { w with header := w.header.add key value }

/-- Call `w.WriteHeader(code)`: only the first call has an effect. -/
def ResponseWriter.writeHeader (w : ResponseWriter) (code : Nat) : ResponseWriter :=
  if w.wroteHeader then w
  else { w with wroteHeader := true, status := code, sent := w.header }

/-- Call `w.Write(data)`: sends status 200 first when no status was sent yet. -/
def ResponseWriter.write (w : ResponseWriter) (data : String) : ResponseWriter :=
  let w1 := w.writeHeader 200
  { w1 with body := w1.body ++ data }

/-- Status codes of `net/http` used by the handlers. -/
def StatusOK : Nat := 200
def StatusCreated : Nat := 201
def StatusFound : Nat := 302
def StatusBadRequest : Nat := 400
def StatusNotFound : Nat := 404
def StatusMethodNotAllowed : Nat := 405
def StatusUnsupportedMediaType : Nat := 415
def StatusInternalServerError : Nat := 500

/-! ## Library calls: `encoding/json`, encoding -/

/-- The double quote character. -/
def quoteChar : Char := Char.ofNat 34

/-- The backslash character. -/
def backslashChar : Char := Char.ofNat 92

/-- Lower-case hexadecimal digit. -/
def hexDigit (n : Nat) : Char := "0123456789abcdef".data.getD n '0'

/-- Escape of the form backslash, `u`, four hexadecimal digits. -/
def unicodeEscape (n : Nat) : List Char :=
  [backslashChar, 'u', hexDigit (n / 4096 % 16), hexDigit (n / 256 % 16),
    hexDigit (n / 16 % 16), hexDigit (n % 16)]

/-- Encoding of one character inside a JSON string, as `json.Marshal` writes it (HTML
escaping on): quote and backslash get a backslash, newline, carriage return and tab their
short escapes, the other control characters, `<`, `>`, `&` and the line separators
U+2028 and U+2029 a `u` escape; everything else is copied. -/
def escapeChar (c : Char) : List Char :=
  if c = quoteChar ∨ c = backslashChar then [backslashChar, c]
  else if c.toNat = 10 then [backslashChar, 'n']
  else if c.toNat = 13 then [backslashChar, 'r']
  else if c.toNat = 9 then [backslashChar, 't']
  else if c.toNat < 32 ∨ c = '<' ∨ c = '>' ∨ c = '&' ∨ c.toNat = 8232 ∨ c.toNat = 8233 then
    unicodeEscape c.toNat
  else [c]

/-- JSON encoding of a Go string. -/
def encodeString (s : String) : String :=
  ⟨quoteChar :: (s.data.map escapeChar).flatten ++ [quoteChar]⟩

/-- Object member `"name":` followed by the encoded value. -/
def encodeMember (name value : String) : String :=
  encodeString name ++ ":" ++ value

/-- JSON encoding of a `Player`: the fields in declaration order under their `json` tags. -/
def encodePlayer (p : Player) : String :=
  "\x7b" ++ ",".intercalate
    [encodeMember "firstname" (encodeString p.FirstName),
     encodeMember "lastname" (encodeString p.LastName),
     encodeMember "sport" (encodeString p.Sport),
     encodeMember "gender" (encodeString p.Gender),
     encodeMember "age" (formatInt p.Age),
     encodeMember "country" (encodeString p.Country),
     encodeMember "id" (encodeString p.ID)] ++ "\x7d"

/-- JSON encoding of a non-nil `[]Player`: the encoded elements in order, `[]` when empty. -/
def encodePlayers (ps : List Player) : String :=
  "[" ++ ",".intercalate (ps.map encodePlayer) ++ "]"

namespace json

/-- Call `json.Marshal(player)`: data and error. Encoding a struct of strings and an
integer has no failing case. -/
def MarshalPlayer (p : Player) : String × Option String := (encodePlayer p, none)

/-- Call `json.Marshal(players)` on a slice made by `make`: data and error. -/
def MarshalPlayers (ps : List Player) : String × Option String := (encodePlayers ps, none)

end json

/-! ## Library calls: `encoding/json`, decoding -/

/-- A parsed JSON value; a number keeps its literal. -/
inductive Value where
  | null : Value
  | bool : Bool → Value
  | number : List Char → Value
  | string : List Char → Value
  | array : List Value → Value
  | object : List (List Char × Value) → Value

/-- JSON white space: space, tab, line feed, carriage return. -/
def isSpace (c : Char) : Bool :=
  c.toNat = 32 || c.toNat = 9 || c.toNat = 10 || c.toNat = 13

/-- Drops leading white space. -/
def skipSpace : List Char → List Char
  | [] => []
  | c :: cs => if isSpace c then skipSpace cs else c :: cs

/-- Value of a hexadecimal digit of either case. -/
def hexValue (c : Char) : Option Nat :=
  if c.isDigit then some (c.toNat - 48)
  else if 97 ≤ c.toNat ∧ c.toNat ≤ 102 then some (c.toNat - 87)
  else if 65 ≤ c.toNat ∧ c.toNat ≤ 70 then some (c.toNat - 55)
  else none

/-- Value of four hexadecimal digits. -/
def hex4 (a b c d : Char) : Option Nat :=
  match hexValue a, hexValue b, hexValue c, hexValue d with
  | some x, some y, some z, some w => some (x * 4096 + y * 256 + z * 16 + w)
  | _, _, _, _ => none

/-- Character named by a one-letter escape. -/
def simpleEscape (c : Char) : Option Char :=
  if c = quoteChar ∨ c = backslashChar ∨ c = '/' then some c
  else if c = 'b' then some (Char.ofNat 8)
  else if c = 'f' then some (Char.ofNat 12)
  else if c = 'n' then some (Char.ofNat 10)
  else if c = 'r' then some (Char.ofNat 13)
  else if c = 't' then some (Char.ofNat 9)
  else none

/-- The replacement character U+FFFD. -/
def replacementChar : Char := Char.ofNat 65533

/-- Reads a `u` escape that starts right after the backslash-u: the character and the
rest of the input. A surrogate half followed by an escaped matching half gives the
combined character; a surrogate half alone gives U+FFFD. -/
def scanUnicodeEscape : List Char → Option (Char × List Char)
  | a :: b :: c :: d :: rest =>
    match hex4 a b c d with
    | none => none
    | some u =>
      if 55296 ≤ u ∧ u < 57344 then
        match rest with
        | e1 :: e2 :: a2 :: b2 :: c2 :: d2 :: rest2 =>
          match hex4 a2 b2 c2 d2 with
          | some u2 =>
            if e1 = backslashChar ∧ e2 = 'u' ∧ u < 56320 ∧ 56320 ≤ u2 ∧ u2 < 57344 then
              some (Char.ofNat ((u - 55296) * 1024 + (u2 - 56320) + 65536), rest2)
            else some (replacementChar, rest)
          | none => some (replacementChar, rest)
        | _ => some (replacementChar, rest)
      else some (Char.ofNat u, rest)
  | _ => none

/-- Reads a string literal whose opening quote was consumed: its decoded characters and
the input after the closing quote. `acc` holds the characters read so far, last first. -/
def scanString : Nat → List Char → List Char → Option (List Char × List Char)
  | 0, _, _ => none
  | _ + 1, [], _ => none
  | fuel + 1, c :: rest, acc =>
    if c = quoteChar then some (acc.reverse, rest)
    else if c = backslashChar then
      match rest with
      | [] => none
      | e :: rest2 =>
        if e = 'u' then
          match scanUnicodeEscape rest2 with
          | none => none
          | some (ch, rest3) => scanString fuel rest3 (ch :: acc)
        else
          match simpleEscape e with
          | none => none
          | some ch => scanString fuel rest2 (ch :: acc)
    else if c.toNat < 32 then none
    else scanString fuel rest (c :: acc)

/-- Reads a non-empty run of decimal digits. -/
def scanDigits (cs : List Char) : Option (List Char × List Char) :=
  let ds := cs.takeWhile Char.isDigit
  if ds = [] then none else some (ds, cs.dropWhile Char.isDigit)

/-- Reads the integer part of a number: `0`, or a non-zero digit and more digits. -/
def scanIntPart : List Char → Option (List Char × List Char)
  | [] => none
  | c :: cs =>
    if c = '0' then some (['0'], cs)
    else if c.isDigit then some (c :: cs.takeWhile Char.isDigit, cs.dropWhile Char.isDigit)
    else none

/-- Reads the optional fraction of a number. -/
def scanFraction : List Char → Option (List Char × List Char)
  | '.' :: cs =>
    match scanDigits cs with
    | none => none
    | some (ds, rest) => some ('.' :: ds, rest)
  | cs => some ([], cs)

/-- Reads the optional exponent of a number. -/
def scanExponent : List Char → Option (List Char × List Char)
  | [] => some ([], [])
  | e :: cs =>
    if e = 'e' ∨ e = 'E' then
      match cs with
      | s :: cs2 =>
        if s = '+' ∨ s = '-' then
          match scanDigits cs2 with
          | none => none
          | some (ds, rest) => some (e :: s :: ds, rest)
        else
          match scanDigits cs with
          | none => none
          | some (ds, rest) => some (e :: ds, rest)
      | [] => none
    else some ([], e :: cs)

/-- Reads a number literal: optional minus, integer part, optional fraction and exponent. -/
def scanNumber (cs : List Char) : Option (List Char × List Char) :=
  let signed : List Char × List Char :=
    match cs with
    | '-' :: rest => (['-'], rest)
    | _ => ([], cs)
  match scanIntPart signed.2 with
  | none => none
  | some (ip, r1) =>
    match scanFraction r1 with
    | none => none
    | some (fp, r2) =>
      match scanExponent r2 with
      | none => none
      | some (ep, r3) => some (signed.1 ++ ip ++ fp ++ ep, r3)

/-- Deepest nesting of arrays and objects the decoder accepts. -/
def maxNestingDepth : Nat := 10000

mutual

/-- Reads one JSON value after optional white space; `depth` counts the open arrays and
objects. -/
def parseValue : Nat → Nat → List Char → Option (Value × List Char)
  | 0, _, _ => none
  | fuel + 1, depth, cs =>
    match skipSpace cs with
    | [] => none
    | c :: rest =>
      if c = quoteChar then
        match scanString (rest.length + 1) rest [] with
        | none => none
        | some (s, rest2) => some (Value.string s, rest2)
      else if c = '[' then
        if maxNestingDepth ≤ depth then none
        else
          match skipSpace rest with
          | ']' :: rest2 => some (Value.array [], rest2)
          | _ =>
            match parseElements fuel (depth + 1) rest [] with
            | none => none
            | some (xs, rest2) => some (Value.array xs, rest2)
      else if c = Char.ofNat 123 then
        if maxNestingDepth ≤ depth then none
        else
          match skipSpace rest with
          | [] => none
          | d :: rest2 =>
            if d = Char.ofNat 125 then some (Value.object [], rest2)
            else
              match parseMembers fuel (depth + 1) rest [] with
              | none => none
              | some (ms, rest3) => some (Value.object ms, rest3)
      else if c = '-' ∨ c.isDigit then
        match scanNumber (c :: rest) with
        | none => none
        | some (lit, rest2) => some (Value.number lit, rest2)
      else
        match c :: rest with
        | 'n' :: 'u' :: 'l' :: 'l' :: rest2 => some (Value.null, rest2)
        | 't' :: 'r' :: 'u' :: 'e' :: rest2 => some (Value.bool true, rest2)
        | 'f' :: 'a' :: 'l' :: 's' :: 'e' :: rest2 => some (Value.bool false, rest2)
        | _ => none

/-- Reads the elements of a non-empty array up to its closing bracket. -/
def parseElements : Nat → Nat → List Char → List Value → Option (List Value × List Char)
  | 0, _, _, _ => none
  | fuel + 1, depth, cs, acc =>
    match parseValue fuel depth cs with
    | none => none
    | some (v, rest) =>
      match skipSpace rest with
      | ',' :: rest2 => parseElements fuel depth rest2 (v :: acc)
      | ']' :: rest2 => some ((v :: acc).reverse, rest2)
      | _ => none

/-- Reads the members of a non-empty object up to its closing brace. -/
def parseMembers : Nat → Nat → List Char → List (List Char × Value) →
    Option (List (List Char × Value) × List Char)
  | 0, _, _, _ => none
  | fuel + 1, depth, cs, acc =>
    match skipSpace cs with
    | [] => none
    | q :: rest =>
      if q = quoteChar then
        match scanString (rest.length + 1) rest [] with
        | none => none
        | some (key, rest2) =>
          match skipSpace rest2 with
          | ':' :: rest3 =>
            match parseValue fuel depth rest3 with
            | none => none
            | some (v, rest4) =>
              match skipSpace rest4 with
              | [] => none
              | d :: rest5 =>
                if d = ',' then parseMembers fuel depth rest5 ((key, v) :: acc)
                else if d = Char.ofNat 125 then some (((key, v) :: acc).reverse, rest5)
                else none
          | _ => none
      else none

end

/-- Parses a whole document: one value with nothing but white space around it. The fuel
bounds the nesting of the calls; a call consumes a character before it makes two more, so
twice the length of the input is enough. -/
def parseDocument (s : String) : Option Value :=
  match parseValue (2 * s.data.length + 2) 0 s.data with
  | none => none
  | some (v, rest) => if skipSpace rest = [] then some v else none

/-- Case folding of a key character when a key is matched with a field name: ASCII
letters to lower case, and the two non-ASCII characters that fold to `s` and `k`. -/
def foldChar (c : Char) : Char :=
  if c.toNat = 383 then 's' else if c.toNat = 8490 then 'k' else c.toLower

/-- Value of an integer literal that fits a 64-bit `int`; `none` for a literal with a
fraction or an exponent and for a value out of range. -/
def parseInt64 (lit : List Char) : Option Int :=
  let value (ds : List Char) : Nat := ds.foldl (fun a c => 10 * a + (c.toNat - 48)) 0
  match lit with
  | '-' :: ds =>
    if ds ≠ [] ∧ ds.all Char.isDigit ∧ value ds ≤ 2 ^ 63 then some (-(value ds : Int)) else none
  | ds =>
    if ds ≠ [] ∧ ds.all Char.isDigit ∧ value ds < 2 ^ 63 then some (value ds : Int) else none

/-- Stores a JSON value into a string field: a string is stored, `null` leaves the field
as it is, any other value is a type error (`false`). -/
def storeString (v : Value) (old : String) : String × Bool :=
  match v with
  | Value.string s => (⟨s⟩, true)
  | Value.null => (old, true)
  | _ => (old, false)

/-- Stores a JSON value into the integer field. -/
def storeInt (v : Value) (old : Int) : Int × Bool :=
  match v with
  | Value.number lit =>
    match parseInt64 lit with
    | some n => (n, true)
    | none => (old, false)
  | Value.null => (old, true)
  | _ => (old, false)

/-- Stores one object member into the field whose `json` tag matches the key (exactly or
up to case); a key that matches no tag is skipped. -/
def storeMember (p : Player) (key : List Char) (v : Value) : Player × Bool :=
  let name : String := ⟨key.map foldChar⟩
  if name = "firstname" then
    let r := storeString v p.FirstName
    ({ p with FirstName := r.1 }, r.2)
  else if name = "lastname" then
    let r := storeString v p.LastName
    ({ p with LastName := r.1 }, r.2)
  else if name = "sport" then
    let r := storeString v p.Sport
    ({ p with Sport := r.1 }, r.2)
  else if name = "gender" then
    let r := storeString v p.Gender
    ({ p with Gender := r.1 }, r.2)
  else if name = "age" then
    let r := storeInt v p.Age
    ({ p with Age := r.1 }, r.2)
  else if name = "country" then
    let r := storeString v p.Country
    ({ p with Country := r.1 }, r.2)
  else if name = "id" then
    let r := storeString v p.ID
    ({ p with ID := r.1 }, r.2)
  else (p, true)

/-- Stores the members of an object in order; a type error does not stop the decoding,
it is reported at the end. -/
def storeMembers : Player → List (List Char × Value) → Player × Bool
  | p, [] => (p, true)
  | p, (key, v) :: rest =>
    let r := storeMember p key v
    let r2 := storeMembers r.1 rest
    (r2.1, r.2 && r2.2)

/-- Error text of a document that is not valid JSON. The texts of `encoding/json` name
the offending character; they are not reproduced here. -/
def invalidJSONText : String := "invalid character or unexpected end of JSON input"

/-- Error text of a valid document with a value of the wrong type. -/
def typeErrorText : String := "json: cannot unmarshal value into Go value"

namespace json

/-- Call `json.Unmarshal(data, &player)`: the player afterwards and the error. The
document is checked first; an object fills the fields its keys name, `null` changes
nothing, any other value is a type error. -/
def Unmarshal (data : String) (player : Player) : Player × Option String :=
  match parseDocument data with
  | none => (player, some invalidJSONText)
  | some Value.null => (player, none)
  | some (Value.object members) =>
    let r := storeMembers player members
    (r.1, if r.2 then none else some typeErrorText)
  | some _ => (player, some typeErrorText)

end json

/-! ## The handlers -/

/-- What a handler does to the guard and to the map, in program order. -/
inductive Event where
  | lock : Event
  | unlock : Event
  | mapLen : Event
  | mapRange : Event
  | mapLoad : Event
  | mapStore : Event
  deriving DecidableEq

/-- State of one handler call: the receiver `h`, the response writer `w`, and the log of
guard and map events so far. -/
structure Call where
  h : playerHandlers
  w : ResponseWriter
  log : List Event
  deriving DecidableEq

/-- What a handler reads of an `*http.Request`: the method, `r.URL.String()`,
`r.Header.Get("content-type")`, and the result of `ioutil.ReadAll(r.Body)`. -/
structure Request where
  Method : String
  URL : String
  contentType : String
  bodyBytes : String
  bodyErr : Option String
  deriving DecidableEq

/-- Inputs a handler takes from its environment: the reading of
`time.Now().UnixNano()`, the order of the `range` loop, the number drawn by `rand.Intn`
before it is reduced to the range. -/
structure Env where
  now : Int
  order : Nat
  rand : Nat
  deriving DecidableEq

/-- Appends an event to the log. -/
def Call.emit (c : Call) (e : Event) : Call := { c with log := c.log ++ [e] }

/-- Call `h.Lock()`. -/
def Call.Lock (c : Call) : Call := c.emit Event.lock

/-- Call `h.Unlock()`. -/
def Call.Unlock (c : Call) : Call := c.emit Event.unlock

/-- Call `w.Header().Add(key, value)`. -/
def Call.addHeader (c : Call) (key value : String) : Call :=
  { c with w := c.w.addHeader key value }

/-- Call `w.WriteHeader(code)`. -/
def Call.writeHeader (c : Call) (code : Nat) : Call :=
  { c with w := c.w.writeHeader code }

/-- Call `w.Write([]byte(data))`. -/
def Call.write (c : Call) (data : String) : Call :=
  { c with w := c.w.write data }

/-- Loop `for _, x := range ...` that stores the visited values at the indices 0, 1, 2, ...
of the slice. The slice was made with the length of the map, so every index is in range. -/
def fillSlice {α : Type} (slice : List α) (visited : List α) : List α :=
  (visited.foldl (fun (acc : List α × Nat) x => (acc.1.set acc.2 x, acc.2 + 1)) (slice, 0)).1

/-- Handler `get`: list of all players. -/
def get (c : Call) (_r : Request) (env : Env) : Call :=
  let c := c.emit Event.mapLen
  let players := List.replicate c.h.store.length Player.zero
  let c := c.Lock
  let c := c.emit Event.mapRange
  let players := fillSlice players ((mapRange c.h.store env.order).map Prod.snd)
  let c := c.Unlock
  let marshalled := json.MarshalPlayers players
  let c :=
    match marshalled.2 with
    | some err => (c.writeHeader StatusInternalServerError).write err
    | none => c
  let c := c.addHeader "content-type" "application/json"
  let c := c.addHeader "Access-Control-Allow-Origin" "*"
  let c := c.writeHeader StatusOK
  c.write marshalled.1

/-- Handler `getRandomPlayer`: redirect to a player picked at random. The deferred
`Unlock` runs when the function returns. -/
def getRandomPlayer (c : Call) (_r : Request) (env : Env) : Call :=
  let c := c.emit Event.mapLen
  let ids := List.replicate c.h.store.length ""
  let c := c.Lock
  let c := c.emit Event.mapRange
  let ids := fillSlice ids ((mapRange c.h.store env.order).map Prod.fst)
  if ids.length = 0 then
    let c := c.addHeader "Access-Control-Allow-Origin" "*"
    let c := c.writeHeader StatusNotFound
    c.Unlock
  else
    let target :=
      if ids.length = 1 then ids.getD 0 ""
      else ids.getD (env.rand % ids.length) ""
    let c := c.addHeader "location" (playerPath target)
    let c := c.addHeader "Access-Control-Allow-Origin" "*"
    let c := c.writeHeader StatusFound
    c.Unlock

/-- Handler `getPlayer`: one player by the identifier in the fourth part of the URL. -/
def getPlayer (c : Call) (r : Request) (env : Env) : Call :=
  let parts := strings.Split r.URL '/'
  if parts.length ≠ 4 then c.writeHeader StatusNotFound
  else if parts.getD 3 "" = "random" then getRandomPlayer c r env
  else
    let c := c.Lock
    let c := c.emit Event.mapLoad
    let found := mapLoad c.h.store (parts.getD 3 "")
    let c := c.Unlock
    match found with
    | none => c.writeHeader StatusNotFound
    | some player =>
      let marshalled := json.MarshalPlayer player
      let c :=
        match marshalled.2 with
        | some err => (c.writeHeader StatusInternalServerError).write err
        | none => c
      let c := c.addHeader "content-type" "application/json"
      let c := c.addHeader "Access-Control-Allow-Origin" "*"
      let c := c.writeHeader StatusOK
      c.write marshalled.1

/-- Handler `post`: create a player. The deferred `Unlock` runs when the function
returns, after the status is written. -/
def post (c : Call) (r : Request) (env : Env) : Call :=
  match r.bodyErr with
  | some err =>
    let c := c.addHeader "Access-Control-Allow-Origin" "*"
    let c := c.writeHeader StatusInternalServerError
    c.write err
  | none =>
    let ct := r.contentType
    if ct ≠ "application/json" then
      let c := c.addHeader "Access-Control-Allow-Origin" "*"
      let c := c.writeHeader StatusUnsupportedMediaType
      c.write ("need content type application/json, got " ++ ct)
    else
      let decoded := json.Unmarshal r.bodyBytes Player.zero
      match decoded.2 with
      | some err =>
        let c := c.writeHeader StatusBadRequest
        c.write err
      | none =>
        let player := { decoded.1 with ID := formatInt env.now }
        let c := c.Lock
        let c := c.emit Event.mapStore
        let c := { c with h := { c.h with store := mapStore c.h.store player.ID player } }
        let c := c.addHeader "content-type" "application/json"
        let c := c.addHeader "Access-Control-Allow-Origin" "*"
        let c := c.writeHeader StatusCreated
        c.Unlock

/-- Handler `players`: dispatch on the request method. -/
def players (c : Call) (r : Request) (env : Env) : Call :=
  if r.Method = "GET" then get c r env
  else if r.Method = "POST" then post c r env
  else
    let c := c.addHeader "Access-Control-Allow-Origin" "*"
    let c := c.writeHeader StatusMethodNotAllowed
    c.write "Error, method not allowed!"

/-- One request served by a handler on a store: the handler runs on a fresh response
writer, and the server sends status 200 when the handler wrote none. -/
def serve (handler : Call → Request → Env → Call) (store : Store) (r : Request) (env : Env) :
    Call :=
  let c := handler ⟨⟨store⟩, ResponseWriter.new, []⟩ r env
  { c with w := if c.w.wroteHeader then c.w else c.w.writeHeader StatusOK }

/-- Header name of the cross-origin permission. -/
def corsHeader : String := "Access-Control-Allow-Origin"

/-- Guard discipline of a log, read left to right with `held` telling whether the guard
is held: the guard is taken only when free and released only when held, every map
event happens while it is held, and it is free at the end. -/
def guarded : Bool → List Event → Bool
  | held, [] => !held
  | held, Event.lock :: rest => !held && guarded true rest
  | held, Event.unlock :: rest => held && guarded false rest
  | held, _ :: rest => held && guarded held rest

/-! ## Requests and answers named in the properties -/

/-- Request `POST /v1/players` with content type `application/json` and a body that was
read without error. -/
def createRequest (body : String) : Request :=
  ⟨"POST", "/v1/players", "application/json", body, none⟩

/-- Request `GET /v1/players`. -/
def listRequest : Request := ⟨"GET", "/v1/players", "", "", none⟩

/-- Request `GET /v1/players/` followed by `id`. -/
def fetchRequest (id : String) : Request := ⟨"GET", playerPath id, "", "", none⟩

/-- Request `GET /v1/players/random`. -/
def randomRequest : Request := ⟨"GET", "/v1/players/random", "", "", none⟩

/-- Headers sent with a 200 or 201 answer. -/
def jsonHeaders : Header :=
  [("Content-Type", "application/json"), ("Access-Control-Allow-Origin", "*")]

/-- Headers sent with an answer that carries only the cross-origin permission. -/
def corsOnly : Header := [("Access-Control-Allow-Origin", "*")]

/-- Identifier that `getRandomPlayer` picks among the visited keys of a non-empty store. -/
def pickedId (store : Store) (env : Env) : String :=
  if store.length = 1 then ((mapRange store env.order).map Prod.fst).getD 0 ""
  else ((mapRange store env.order).map Prod.fst).getD (env.rand % store.length) ""

/-- Number written by a list of decimal digit characters. -/
def digitsValue (ds : List Char) : Nat := ds.foldl (fun a c => 10 * a + (c.toNat - 48)) 0

/-- Store after a sequence of `POST /v1/players` requests, each with its body and the
environment it runs in, served one after another. -/
def createAll (store : Store) : List (String × Env) → Store
  | [] => store
  | q :: rest => createAll (serve players store (createRequest q.1) q.2).h.store rest

/-! ## Lemmas -/

/-! ### The map and the `range` loop -/

theorem mapRange_perm (m : Store) (order : Nat) : (mapRange m order).Perm m := by
  unfold mapRange
  have hpos : 0 < m.permutations.length := by
    rw [List.length_permutations]; exact Nat.factorial_pos _
  have hlt := Nat.mod_lt order hpos
  rw [List.getD_eq_getElem _ _ hlt]
  exact List.perm_of_mem_permutations (List.getElem_mem _)

theorem mapRange_any_order (m : Store) (l : List (String × Player)) (h : l.Perm m) :
    ∃ order, mapRange m order = l := by
  obtain ⟨i, hi, hget⟩ := List.getElem_of_mem (List.mem_permutations.2 h)
  refine ⟨i, ?_⟩
  unfold mapRange
  rw [Nat.mod_eq_of_lt hi, List.getD_eq_getElem _ _ hi, hget]

theorem fillSlice_aux {α : Type} (visited : List α) :
    ∀ (pre rem : List α), visited.length ≤ rem.length →
      (visited.foldl (fun (acc : List α × Nat) x => (acc.1.set acc.2 x, acc.2 + 1))
        (pre ++ rem, pre.length)).1 = pre ++ visited ++ rem.drop visited.length := by
  induction visited with
  | nil => intro pre rem _; simp
  | cons x xs ih =>
    intro pre rem h
    cases rem with
    | nil => simp at h
    | cons y ys =>
      simp only [List.length_cons, Nat.add_le_add_iff_right] at h
      have hset : (pre ++ y :: ys).set pre.length x = (pre ++ [x]) ++ ys := by
        rw [List.set_append_right _ _ (Nat.le_refl _)]; simp
      have hlen : pre.length + 1 = (pre ++ [x]).length := by simp
      simp only [List.foldl_cons, hset, hlen]
      rw [ih (pre ++ [x]) ys h]
      simp

theorem fillSlice_replicate {α : Type} (z : α) (visited : List α) :
    fillSlice (List.replicate visited.length z) visited = visited := by
  have h := fillSlice_aux visited [] (List.replicate visited.length z) (by simp)
  simpa [fillSlice] using h

theorem mapLoad_mapStore_self (m : Store) (k : String) (v : Player) :
    mapLoad (mapStore m k v) k = some v := by
  induction m with
  | nil => simp [mapStore, mapLoad]
  | cons e rest ih =>
    obtain ⟨k', v'⟩ := e
    by_cases h : k' = k
    · simp [mapStore, mapLoad, h]
    · simp [mapStore, mapLoad, h, ih]

theorem mapLoad_mapStore_of_ne (m : Store) (k k2 : String) (v : Player) (hne : k2 ≠ k) :
    mapLoad (mapStore m k v) k2 = mapLoad m k2 := by
  induction m with
  | nil => simp [mapStore, mapLoad, Ne.symm hne]
  | cons e rest ih =>
    obtain ⟨k', v'⟩ := e
    by_cases h : k' = k
    · subst h; simp [mapStore, mapLoad, Ne.symm hne]
    · by_cases h2 : k' = k2
      · subst h2; simp [mapStore, mapLoad, h]
      · simp [mapStore, mapLoad, h, h2, ih]

theorem mapLoad_isSome_iff (m : Store) (k : String) :
    (mapLoad m k).isSome = true ↔ k ∈ mapKeys m := by
  induction m with
  | nil => simp [mapLoad, mapKeys]
  | cons e rest ih =>
    obtain ⟨k', v'⟩ := e
    by_cases h : k' = k
    · simp [mapLoad, mapKeys, h]
    · have h2 : ¬ k = k' := fun e => h e.symm
      simp [mapLoad, mapKeys, h, h2] at ih ⊢
      exact ih

/-! ### Paths and identifiers -/

theorem splitChars_of_not_mem (sep : Char) (cs : List Char) (h : sep ∉ cs) :
    splitChars sep cs = [cs] := by
  induction cs with
  | nil => rfl
  | cons c rest ih =>
    have h1 : c ≠ sep := fun e => h (by simp [e])
    have h2 : sep ∉ rest := fun e => h (by simp [e])
    simp [splitChars, h1, ih h2]

theorem split_playerPath (target : String) (h : '/' ∉ target.data) :
    strings.Split (playerPath target) '/' = ["", "v1", "players", target] := by
  have hd : (playerPath target).data = "/v1/players/".data ++ target.data := by
    simp [playerPath, version]
  simp only [strings.Split, hd]
  simp [splitChars, splitChars_of_not_mem _ _ h]

theorem digitChar_isDigit (n : Nat) : (Nat.digitChar (n % 10)).isDigit = true := by
  have h : n % 10 < 10 := Nat.mod_lt _ (by decide)
  interval_cases (n % 10) <;> decide

theorem toDigitsCore_chars (fuel : Nat) :
    ∀ (n : Nat) (ds : List Char), ∀ c ∈ Nat.toDigitsCore 10 fuel n ds,
      c ∈ ds ∨ c.isDigit = true := by
  induction fuel with
  | zero => intro n ds c hc; exact Or.inl (by simpa [Nat.toDigitsCore] using hc)
  | succ f ih =>
    intro n ds c hc
    simp only [Nat.toDigitsCore] at hc
    split at hc
    · rcases List.mem_cons.1 hc with h | h
      · exact Or.inr (h ▸ digitChar_isDigit n)
      · exact Or.inl h
    · rcases ih _ _ c hc with h | h
      · rcases List.mem_cons.1 h with h | h
        · exact Or.inr (h ▸ digitChar_isDigit n)
        · exact Or.inl h
      · exact Or.inr h

theorem toDigitsCore_ne_nil (fuel : Nat) :
    ∀ (n : Nat) (ds : List Char), ds ≠ [] ∨ 0 < fuel → Nat.toDigitsCore 10 fuel n ds ≠ [] := by
  induction fuel with
  | zero =>
    intro n ds h
    rcases h with h | h
    · simpa [Nat.toDigitsCore] using h
    · omega
  | succ f ih =>
    intro n ds _
    simp only [Nat.toDigitsCore]
    split
    · simp
    · exact ih _ _ (Or.inl (by simp))

theorem formatInt_chars (t : Int) : ∀ c ∈ (formatInt t).data, c.isDigit = true ∨ c = '-' := by
  intro c hc
  cases t with
  | ofNat n =>
    rcases toDigitsCore_chars _ _ _ c (by simpa [formatInt, Nat.toDigits] using hc) with h | h
    · simp at h
    · exact Or.inl h
  | negSucc n =>
    simp only [formatInt, List.mem_cons] at hc
    rcases hc with h | h
    · exact Or.inr h
    · rcases toDigitsCore_chars _ _ _ c (by simpa [Nat.toDigits] using h) with h | h
      · simp at h
      · exact Or.inl h

theorem formatInt_no_slash (t : Int) : '/' ∉ (formatInt t).data := by
  intro h
  rcases formatInt_chars t _ h with h | h
  · exact absurd h (by decide)
  · exact absurd h (by decide)

theorem formatInt_ne_random (t : Int) : formatInt t ≠ "random" := by
  intro h
  have hr : 'r' ∈ (formatInt t).data := by rw [h]; decide
  rcases formatInt_chars t _ hr with h | h
  · exact absurd h (by decide)
  · exact absurd h (by decide)

theorem formatInt_ne_empty (t : Int) : formatInt t ≠ "" := by
  intro h
  have hd : (formatInt t).data = [] := by rw [h]
  cases t with
  | ofNat n =>
    exact toDigitsCore_ne_nil _ _ _ (Or.inr (Nat.succ_pos _))
      (by simpa [formatInt, Nat.toDigits] using hd)
  | negSucc n => simp [formatInt] at hd

theorem foldl_digits (ds : List Char) (a : Nat) :
    ds.foldl (fun a c => 10 * a + (c.toNat - 48)) a
      = a * 10 ^ ds.length + digitsValue ds := by
  induction ds generalizing a with
  | nil => simp [digitsValue]
  | cons d rest ih =>
    simp only [List.foldl_cons, List.length_cons, digitsValue]
    rw [ih, ih (10 * 0 + (d.toNat - 48))]
    ring

theorem digitChar_value (n : Nat) : (Nat.digitChar (n % 10)).toNat - 48 = n % 10 := by
  have h : n % 10 < 10 := Nat.mod_lt _ (by decide)
  interval_cases (n % 10) <;> decide

theorem toDigitsCore_value (fuel : Nat) :
    ∀ (n : Nat) (ds : List Char), n < fuel →
      digitsValue (Nat.toDigitsCore 10 fuel n ds) = n * 10 ^ ds.length + digitsValue ds := by
  induction fuel with
  | zero => intro n ds h; omega
  | succ f ih =>
    intro n ds h
    simp only [Nat.toDigitsCore]
    have hcons : digitsValue (Nat.digitChar (n % 10) :: ds)
        = (n % 10) * 10 ^ ds.length + digitsValue ds := by
      simp only [digitsValue, List.foldl_cons]
      rw [foldl_digits, digitChar_value]
      simp [digitsValue]
    split
    · rename_i h0
      rw [hcons]
      have : n % 10 = n := by omega
      rw [this]
    · rename_i h0
      rw [ih (n / 10) _ (by omega), hcons, List.length_cons, pow_succ]
      have hn : n = 10 * (n / 10) + n % 10 := (Nat.div_add_mod n 10).symm
      generalize 10 ^ ds.length = q
      generalize digitsValue ds = v
      generalize n / 10 = x at hn
      generalize n % 10 = y at hn
      subst hn
      ring

theorem toDigits_value (n : Nat) : digitsValue (Nat.toDigits 10 n) = n := by
  have h := toDigitsCore_value (n + 1) n [] (Nat.lt_succ_self n)
  simpa [Nat.toDigits, digitsValue] using h

theorem formatInt_injective (s t : Int) (h : formatInt s = formatInt t) : s = t := by
  have hd : (formatInt s).data = (formatInt t).data := by rw [h]
  have hdash : ∀ n : Nat, '-' ∉ Nat.toDigits 10 n := by
    intro n hm
    rcases toDigitsCore_chars _ _ _ _ hm with h | h
    · simp at h
    · exact absurd h (by decide)
  cases s with
  | ofNat a =>
    cases t with
    | ofNat b =>
      simp only [formatInt] at hd
      have := congrArg digitsValue hd
      rw [toDigits_value, toDigits_value] at this
      rw [this]
    | negSucc b =>
      simp only [formatInt] at hd
      exact absurd (hd ▸ List.mem_cons_self _ _) (hdash a)
  | negSucc a =>
    cases t with
    | ofNat b =>
      simp only [formatInt] at hd
      exact absurd (hd.symm ▸ List.mem_cons_self _ _) (hdash b)
    | negSucc b =>
      simp only [formatInt, List.cons.injEq, true_and] at hd
      have := congrArg digitsValue hd
      rw [toDigits_value, toDigits_value] at this
      have hab : a = b := by omega
      rw [hab]

/-! ### Header names -/

@[simp] theorem canonical_cors :
    canonicalMIMEHeaderKey "Access-Control-Allow-Origin" = "Access-Control-Allow-Origin" := by
  decide

@[simp] theorem canonical_content_type :
    canonicalMIMEHeaderKey "content-type" = "Content-Type" := by decide

@[simp] theorem canonical_location : canonicalMIMEHeaderKey "location" = "Location" := by decide

/-! ### What each handler returns -/

theorem post_created (store : Store) (r : Request) (env : Env) (p : Player)
    (hread : r.bodyErr = none) (hct : r.contentType = "application/json")
    (hdec : json.Unmarshal r.bodyBytes Player.zero = (p, none)) :
    post ⟨⟨store⟩, ResponseWriter.new, []⟩ r env =
      ⟨⟨mapStore store (formatInt env.now) { p with ID := formatInt env.now }⟩,
        ⟨jsonHeaders, true, 201, jsonHeaders, ""⟩,
        [Event.lock, Event.mapStore, Event.unlock]⟩ := by
  simp [post, hread, hct, hdec, Call.Lock, Call.Unlock, Call.emit, Call.addHeader,
    Call.writeHeader, ResponseWriter.new, ResponseWriter.addHeader, ResponseWriter.writeHeader,
    Header.add, StatusCreated, jsonHeaders]

theorem getPlayer_found (store : Store) (r : Request) (env : Env) (id : String) (p : Player)
    (hparts : strings.Split r.URL '/' = ["", "v1", "players", id]) (hid : id ≠ "random")
    (hload : mapLoad store id = some p) :
    getPlayer ⟨⟨store⟩, ResponseWriter.new, []⟩ r env =
      ⟨⟨store⟩, ⟨jsonHeaders, true, 200, jsonHeaders, encodePlayer p⟩,
        [Event.lock, Event.mapLoad, Event.unlock]⟩ := by
  simp [getPlayer, hparts, hid, hload, json.MarshalPlayer, Call.Lock, Call.Unlock, Call.emit,
    Call.addHeader, Call.writeHeader, Call.write, ResponseWriter.new, ResponseWriter.addHeader,
    ResponseWriter.writeHeader, ResponseWriter.write, Header.add, StatusOK, jsonHeaders]

theorem mapRange_length (m : Store) (order : Nat) : (mapRange m order).length = m.length :=
  (mapRange_perm m order).length_eq

theorem fill_players (store : Store) (order : Nat) :
    fillSlice (List.replicate store.length Player.zero) ((mapRange store order).map Prod.snd)
      = (mapRange store order).map Prod.snd := by
  have h := fillSlice_replicate Player.zero ((mapRange store order).map Prod.snd)
  simpa [mapRange_length] using h

theorem fill_ids (store : Store) (order : Nat) :
    fillSlice (List.replicate store.length "") ((mapRange store order).map Prod.fst)
      = (mapRange store order).map Prod.fst := by
  have h := fillSlice_replicate "" ((mapRange store order).map Prod.fst)
  simpa [mapRange_length] using h

theorem get_result (store : Store) (r : Request) (env : Env) :
    get ⟨⟨store⟩, ResponseWriter.new, []⟩ r env =
      ⟨⟨store⟩, ⟨jsonHeaders, true, 200, jsonHeaders,
          encodePlayers ((mapRange store env.order).map Prod.snd)⟩,
        [Event.mapLen, Event.lock, Event.mapRange, Event.unlock]⟩ := by
  simp [get, fill_players, json.MarshalPlayers, Call.Lock, Call.Unlock, Call.emit,
    Call.addHeader, Call.writeHeader, Call.write, ResponseWriter.new, ResponseWriter.addHeader,
    ResponseWriter.writeHeader, ResponseWriter.write, Header.add, StatusOK, jsonHeaders]

theorem getRandomPlayer_empty (r : Request) (env : Env) :
    getRandomPlayer ⟨⟨[]⟩, ResponseWriter.new, []⟩ r env =
      ⟨⟨[]⟩, ⟨[("Access-Control-Allow-Origin", "*")], true, 404,
          [("Access-Control-Allow-Origin", "*")], ""⟩,
        [Event.mapLen, Event.lock, Event.mapRange, Event.unlock]⟩ := by
  simp [getRandomPlayer, fillSlice, mapRange, Call.Lock, Call.Unlock, Call.emit,
    Call.addHeader, Call.writeHeader, ResponseWriter.new, ResponseWriter.addHeader,
    ResponseWriter.writeHeader, Header.add, StatusNotFound]

theorem getRandomPlayer_nonempty (store : Store) (r : Request) (env : Env) (h : store ≠ []) :
    getRandomPlayer ⟨⟨store⟩, ResponseWriter.new, []⟩ r env =
      ⟨⟨store⟩, ⟨[("Location", playerPath (pickedId store env)),
            ("Access-Control-Allow-Origin", "*")], true, 302,
          [("Location", playerPath (pickedId store env)),
            ("Access-Control-Allow-Origin", "*")], ""⟩,
        [Event.mapLen, Event.lock, Event.mapRange, Event.unlock]⟩ := by
  have hlen : store.length ≠ 0 := fun e => h (List.length_eq_zero.1 e)
  simp [getRandomPlayer, fill_ids, mapRange_length, hlen, pickedId, Call.Lock, Call.Unlock,
    Call.emit, Call.addHeader, Call.writeHeader, ResponseWriter.new, ResponseWriter.addHeader,
    ResponseWriter.writeHeader, Header.add, StatusFound]

theorem pickedId_mem (store : Store) (env : Env) (h : store ≠ []) :
    pickedId store env ∈ mapKeys store := by
  have hlen : 0 < store.length := List.length_pos.2 h
  have hperm : ((mapRange store env.order).map Prod.fst).Perm (mapKeys store) :=
    (mapRange_perm store env.order).map _
  have hl : ((mapRange store env.order).map Prod.fst).length = store.length := by
    simp [mapRange_length]
  have key : ∀ i, i < store.length →
      ((mapRange store env.order).map Prod.fst).getD i "" ∈ mapKeys store := by
    intro i hi
    rw [List.getD_eq_getElem _ _ (by rw [hl]; exact hi)]
    exact hperm.subset (List.getElem_mem _)
  unfold pickedId
  split
  · exact key 0 hlen
  · exact key _ (Nat.mod_lt _ hlen)

theorem playerPath_eq (target : String) : playerPath target = "/v1/players/" ++ target := by
  apply String.ext
  simp [playerPath, version]

theorem getPlayer_malformed (store : Store) (r : Request) (env : Env)
    (h : (strings.Split r.URL '/').length ≠ 4) :
    getPlayer ⟨⟨store⟩, ResponseWriter.new, []⟩ r env =
      ⟨⟨store⟩, ⟨[], true, 404, [], ""⟩, []⟩ := by
  simp [getPlayer, h, Call.writeHeader, ResponseWriter.new, ResponseWriter.writeHeader,
    StatusNotFound]

theorem length_four {α : Type} (l : List α) (h : l.length = 4) :
    ∃ a b c d, l = [a, b, c, d] := by
  match l, h with
  | [a, b, c, d], _ => exact ⟨a, b, c, d, rfl⟩

theorem getPlayer_lookup (store : Store) (r : Request) (env : Env)
    (h4 : (strings.Split r.URL '/').length = 4)
    (hid : (strings.Split r.URL '/').getD 3 "" ≠ "random") :
    getPlayer ⟨⟨store⟩, ResponseWriter.new, []⟩ r env =
      match mapLoad store ((strings.Split r.URL '/').getD 3 "") with
      | some p => ⟨⟨store⟩, ⟨jsonHeaders, true, 200, jsonHeaders, encodePlayer p⟩,
          [Event.lock, Event.mapLoad, Event.unlock]⟩
      | none => ⟨⟨store⟩, ⟨[], true, 404, [], ""⟩, [Event.lock, Event.mapLoad, Event.unlock]⟩ := by
  obtain ⟨a, b, c, id, hparts⟩ := length_four _ h4
  unfold getPlayer
  rw [hparts] at hid ⊢
  have hid2 : id ≠ "random" := by simpa using hid
  cases hload : mapLoad store id with
  | none =>
    simp [hid2, hload, Call.Lock, Call.Unlock, Call.emit,
      Call.writeHeader, ResponseWriter.new, ResponseWriter.writeHeader, StatusNotFound]
  | some p =>
    simp [hid2, hload, json.MarshalPlayer, Call.Lock, Call.Unlock, Call.emit,
      Call.addHeader, Call.writeHeader, Call.write, ResponseWriter.new,
      ResponseWriter.addHeader, ResponseWriter.writeHeader, ResponseWriter.write, Header.add,
      StatusOK, jsonHeaders]

theorem getPlayer_random (store : Store) (r : Request) (env : Env)
    (h4 : (strings.Split r.URL '/').length = 4)
    (hid : (strings.Split r.URL '/').getD 3 "" = "random") :
    getPlayer ⟨⟨store⟩, ResponseWriter.new, []⟩ r env
      = getRandomPlayer ⟨⟨store⟩, ResponseWriter.new, []⟩ r env := by
  obtain ⟨a, b, c, id, hparts⟩ := length_four _ h4
  unfold getPlayer
  rw [hparts] at hid ⊢
  have hid2 : id = "random" := by simpa using hid
  simp [hid2]

theorem getRandomPlayer_store (store : Store) (r : Request) (env : Env) :
    (getRandomPlayer ⟨⟨store⟩, ResponseWriter.new, []⟩ r env).h.store = store := by
  by_cases h : store = []
  · subst h; rw [getRandomPlayer_empty]
  · rw [getRandomPlayer_nonempty store r env h]

theorem getPlayer_store (store : Store) (r : Request) (env : Env) :
    (getPlayer ⟨⟨store⟩, ResponseWriter.new, []⟩ r env).h.store = store := by
  by_cases h4 : (strings.Split r.URL '/').length = 4
  · by_cases hid : (strings.Split r.URL '/').getD 3 "" = "random"
    · rw [getPlayer_random store r env h4 hid, getRandomPlayer_store]
    · rw [getPlayer_lookup store r env h4 hid]
      cases mapLoad store ((strings.Split r.URL '/').getD 3 "") <;> rfl
  · rw [getPlayer_malformed store r env h4]

theorem serve_store (handler : Call → Request → Env → Call) (store : Store) (r : Request)
    (env : Env) :
    (serve handler store r env).h.store = (handler ⟨⟨store⟩, ResponseWriter.new, []⟩ r env).h.store :=
  rfl

theorem serve_of_wrote (handler : Call → Request → Env → Call) (store : Store) (r : Request)
    (env : Env) (h : (handler ⟨⟨store⟩, ResponseWriter.new, []⟩ r env).w.wroteHeader = true) :
    serve handler store r env = handler ⟨⟨store⟩, ResponseWriter.new, []⟩ r env := by
  simp [serve, h]

theorem post_read_error (store : Store) (r : Request) (env : Env) (e : String)
    (hread : r.bodyErr = some e) :
    post ⟨⟨store⟩, ResponseWriter.new, []⟩ r env =
      ⟨⟨store⟩, ⟨corsOnly, true, 500, corsOnly, e⟩, []⟩ := by
  simp [post, hread, Call.addHeader, Call.writeHeader, Call.write, ResponseWriter.new,
    ResponseWriter.addHeader, ResponseWriter.writeHeader, ResponseWriter.write, Header.add,
    StatusInternalServerError, corsOnly]

theorem post_wrong_type (store : Store) (r : Request) (env : Env)
    (hread : r.bodyErr = none) (hct : r.contentType ≠ "application/json") :
    post ⟨⟨store⟩, ResponseWriter.new, []⟩ r env =
      ⟨⟨store⟩, ⟨corsOnly, true, 415, corsOnly,
        "need content type application/json, got " ++ r.contentType⟩, []⟩ := by
  simp [post, hread, hct, Call.addHeader, Call.writeHeader, Call.write, ResponseWriter.new,
    ResponseWriter.addHeader, ResponseWriter.writeHeader, ResponseWriter.write, Header.add,
    StatusUnsupportedMediaType, corsOnly]

theorem post_bad_request (store : Store) (r : Request) (env : Env) (e : String)
    (hread : r.bodyErr = none) (hct : r.contentType = "application/json")
    (hdec : (json.Unmarshal r.bodyBytes Player.zero).2 = some e) :
    post ⟨⟨store⟩, ResponseWriter.new, []⟩ r env =
      ⟨⟨store⟩, ⟨[], true, 400, [], e⟩, []⟩ := by
  simp [post, hread, hct, hdec, Call.writeHeader, Call.write, ResponseWriter.new,
    ResponseWriter.writeHeader, ResponseWriter.write, StatusBadRequest]

theorem players_post (c : Call) (r : Request) (env : Env) (h : r.Method = "POST") :
    players c r env = post c r env := by
  simp [players, h]

theorem players_get (c : Call) (r : Request) (env : Env) (h : r.Method = "GET") :
    players c r env = get c r env := by
  simp [players, h]

/-! ### Guard discipline and shape of the store -/

theorem mapKeys_mapStore (m : Store) (k : String) (v : Player) :
    mapKeys (mapStore m k v) = if k ∈ mapKeys m then mapKeys m else mapKeys m ++ [k] := by
  induction m with
  | nil => simp [mapStore, mapKeys]
  | cons e rest ih =>
    obtain ⟨k', v'⟩ := e
    by_cases h : k' = k
    · subst h; simp [mapStore, mapKeys]
    · have h2 : ¬ k = k' := fun e => h e.symm
      simp only [mapKeys] at ih
      simp only [mapStore, mapKeys, h, h2, if_false, List.map_cons, List.mem_cons, false_or, ih]
      split <;> simp

theorem mapStore_nodup (m : Store) (k : String) (v : Player) (h : (mapKeys m).Nodup) :
    (mapKeys (mapStore m k v)).Nodup := by
  rw [mapKeys_mapStore]
  split
  · exact h
  · rename_i hk
    exact List.nodup_append.2 ⟨h, List.nodup_singleton k, by
      intro a ha hb
      rw [List.mem_singleton] at hb
      exact hk (hb ▸ ha)⟩

theorem get_log (store : Store) (r : Request) (env : Env) :
    guarded false (get ⟨⟨store⟩, ResponseWriter.new, []⟩ r env).log = false := by
  rw [get_result]; rfl

theorem getRandomPlayer_log (store : Store) (r : Request) (env : Env) :
    guarded false (getRandomPlayer ⟨⟨store⟩, ResponseWriter.new, []⟩ r env).log = false := by
  by_cases h : store = []
  · subst h; rw [getRandomPlayer_empty]; rfl
  · rw [getRandomPlayer_nonempty store r env h]; rfl

theorem getPlayer_lookup_log (store : Store) (r : Request) (env : Env)
    (h4 : (strings.Split r.URL '/').length = 4)
    (hid : (strings.Split r.URL '/').getD 3 "" ≠ "random") :
    guarded false (getPlayer ⟨⟨store⟩, ResponseWriter.new, []⟩ r env).log = true := by
  rw [getPlayer_lookup store r env h4 hid]
  cases mapLoad store ((strings.Split r.URL '/').getD 3 "") <;> rfl

theorem post_log (store : Store) (r : Request) (env : Env) :
    guarded false (post ⟨⟨store⟩, ResponseWriter.new, []⟩ r env).log = true := by
  cases herr : r.bodyErr with
  | some e => rw [post_read_error store r env e herr]; rfl
  | none =>
    by_cases hct : r.contentType = "application/json"
    · cases hdec : (json.Unmarshal r.bodyBytes Player.zero).2 with
      | some e => rw [post_bad_request store r env e herr hct hdec]; rfl
      | none =>
        have hpair : json.Unmarshal r.bodyBytes Player.zero
            = ((json.Unmarshal r.bodyBytes Player.zero).1, none) := by
          rw [← hdec]
        rw [post_created store r env _ herr hct hpair]; rfl
    · rw [post_wrong_type store r env herr hct]; rfl

/-! ### Creates served one after another -/

theorem create_store (store : Store) (body : String) (env : Env)
    (hdec : (json.Unmarshal body Player.zero).2 = none) :
    (serve players store (createRequest body) env).h.store
      = mapStore store (formatInt env.now)
          { (json.Unmarshal body Player.zero).1 with ID := formatInt env.now } := by
  have hpair : json.Unmarshal body Player.zero = ((json.Unmarshal body Player.zero).1, none) := by
    rw [← hdec]
  rw [serve_store, players_post _ _ _ rfl,
    post_created store (createRequest body) env _ rfl rfl hpair]

theorem createAll_other (reqs : List (String × Env)) :
    ∀ (store : Store) (k : String),
      (∀ q ∈ reqs, (json.Unmarshal q.1 Player.zero).2 = none) →
      k ∉ reqs.map (fun q => formatInt q.2.now) →
      mapLoad (createAll store reqs) k = mapLoad store k := by
  induction reqs with
  | nil => intro store k _ _; rfl
  | cons q rest ih =>
    intro store k hok hk
    simp only [List.map_cons, List.mem_cons, not_or] at hk
    simp only [createAll]
    rw [ih _ k (fun x hx => hok x (List.mem_cons_of_mem _ hx)) hk.2,
      create_store store q.1 q.2 (hok q (List.mem_cons_self _ _)),
      mapLoad_mapStore_of_ne _ _ _ _ hk.1]

theorem createAll_distinct_clocks (reqs : List (String × Env)) :
    ∀ (store : Store),
      (∀ q ∈ reqs, (json.Unmarshal q.1 Player.zero).2 = none) →
      (reqs.map (fun q => q.2.now)).Nodup →
      (∀ q ∈ reqs, formatInt q.2.now ∉ mapKeys store) →
      mapKeys (createAll store reqs) = mapKeys store ++ reqs.map (fun q => formatInt q.2.now) ∧
      ∀ q ∈ reqs, mapLoad (createAll store reqs) (formatInt q.2.now)
        = some { (json.Unmarshal q.1 Player.zero).1 with ID := formatInt q.2.now } := by
  induction reqs with
  | nil => intro store _ _ _; simp [createAll]
  | cons q rest ih =>
    intro store hok hnd hfresh
    have hokq := hok q (List.mem_cons_self _ _)
    have hokr : ∀ x ∈ rest, (json.Unmarshal x.1 Player.zero).2 = none :=
      fun x hx => hok x (List.mem_cons_of_mem _ hx)
    rw [List.map_cons, List.nodup_cons] at hnd
    have hne : ∀ x ∈ rest, formatInt x.2.now ≠ formatInt q.2.now := by
      intro x hx he
      exact hnd.1 (List.mem_map.2 ⟨x, hx, formatInt_injective _ _ he⟩)
    have hkeys : mapKeys (mapStore store (formatInt q.2.now)
        { (json.Unmarshal q.1 Player.zero).1 with ID := formatInt q.2.now })
        = mapKeys store ++ [formatInt q.2.now] := by
      rw [mapKeys_mapStore, if_neg (hfresh q (List.mem_cons_self _ _))]
    have hfresh2 : ∀ x ∈ rest, formatInt x.2.now ∉ mapKeys (mapStore store (formatInt q.2.now)
        { (json.Unmarshal q.1 Player.zero).1 with ID := formatInt q.2.now }) := by
      intro x hx
      rw [hkeys, List.mem_append, List.mem_singleton, not_or]
      exact ⟨hfresh x (List.mem_cons_of_mem _ hx), hne x hx⟩
    have hrec := ih (mapStore store (formatInt q.2.now)
        { (json.Unmarshal q.1 Player.zero).1 with ID := formatInt q.2.now }) hokr hnd.2 hfresh2
    simp only [createAll, create_store store q.1 q.2 hokq]
    refine ⟨by rw [hrec.1, hkeys]; simp, ?_⟩
    intro x hx
    rcases List.mem_cons.1 hx with h | h
    · subst h
      rw [createAll_other rest _ _ hokr, mapLoad_mapStore_self]
      intro hm
      obtain ⟨y, hy, he⟩ := List.mem_map.1 hm
      exact hne y hy he
    · exact hrec.2 x h

theorem createAll_distinct_ids (reqs : List (String × Env))
    (hok : ∀ q ∈ reqs, (json.Unmarshal q.1 Player.zero).2 = none)
    (hnd : (reqs.map (fun q => q.2.now)).Nodup) :
    (createAll [] reqs).length = reqs.length ∧ (mapKeys (createAll [] reqs)).Nodup := by
  have h := (createAll_distinct_clocks reqs [] hok hnd (by simp [mapKeys])).1
  have hlen : (mapKeys (createAll [] reqs)).length = reqs.length := by rw [h]; simp [mapKeys]
  refine ⟨by simpa [mapKeys] using hlen, ?_⟩
  rw [h]
  simp only [mapKeys, List.map_nil, List.nil_append]
  have hcomp : reqs.map (fun q => formatInt q.2.now)
      = (reqs.map (fun q => q.2.now)).map formatInt := by simp
  rw [hcomp]
  exact hnd.map (fun a b hab => formatInt_injective a b hab)

/-! ## Properties of the handlers -/

/-- C1, round trip of Create then Get: on any store and at any clock reading, a POST to
`/v1/players` with content type `application/json` whose body decodes to `p` answers 201
and stores `p` under the decimal rendering of the clock reading; a following GET on that
identifier answers 200 with the encoding of `p` carrying the assigned identifier, whatever
identifier the body supplied. -/
theorem create_then_get_round_trip (store : Store) (env env2 : Env) (body : String)
    (p : Player) (hdec : json.Unmarshal body Player.zero = (p, none)) :
    (serve players store (createRequest body) env).w.status = 201 ∧
    mapLoad (serve players store (createRequest body) env).h.store (formatInt env.now)
      = some { p with ID := formatInt env.now } ∧
    (serve getPlayer (serve players store (createRequest body) env).h.store
        (fetchRequest (formatInt env.now)) env2).w.status = 200 ∧
    (serve getPlayer (serve players store (createRequest body) env).h.store
        (fetchRequest (formatInt env.now)) env2).w.body
      = encodePlayer { p with ID := formatInt env.now } := by
  have hpost := post_created store (createRequest body) env p rfl rfl hdec
  have hstore : (serve players store (createRequest body) env).h.store
      = mapStore store (formatInt env.now) { p with ID := formatInt env.now } := by
    rw [serve_store, players_post _ _ _ rfl, hpost]
  have hget := getPlayer_found
    (mapStore store (formatInt env.now) { p with ID := formatInt env.now })
    (fetchRequest (formatInt env.now)) env2 (formatInt env.now)
    { p with ID := formatInt env.now }
    (split_playerPath _ (formatInt_no_slash _)) (formatInt_ne_random _)
    (mapLoad_mapStore_self _ _ _)
  rw [hstore]
  refine ⟨?_, mapLoad_mapStore_self _ _ _, ?_, ?_⟩
  · rw [serve_of_wrote _ _ _ _ (by rw [players_post _ _ _ rfl, hpost]),
      players_post _ _ _ rfl, hpost]
  · rw [serve_of_wrote _ _ _ _ (by rw [hget]), hget]
  · rw [serve_of_wrote _ _ _ _ (by rw [hget]), hget]

/-- C1 at a concrete input: a body with age 3 and its own identifier `7`, created at clock
reading 1000 on the empty store, is fetched back under identifier `1000`. -/
theorem create_then_get_round_trip_witness :
    (serve players [] (createRequest "\x7b\"age\":3,\"id\":\"7\"\x7d") ⟨1000, 0, 0⟩).w.status
      = 201 ∧
    (serve getPlayer
        (serve players [] (createRequest "\x7b\"age\":3,\"id\":\"7\"\x7d") ⟨1000, 0, 0⟩).h.store
        (fetchRequest (formatInt 1000)) ⟨2000, 0, 0⟩).w.body
      = encodePlayer ⟨"", "", "", "", 3, "", formatInt 1000⟩ :=
  ⟨(create_then_get_round_trip [] ⟨1000, 0, 0⟩ ⟨2000, 0, 0⟩
      "\x7b\"age\":3,\"id\":\"7\"\x7d" ⟨"", "", "", "", 3, "", "7"⟩ (by decide)).1,
   (create_then_get_round_trip [] ⟨1000, 0, 0⟩ ⟨2000, 0, 0⟩
      "\x7b\"age\":3,\"id\":\"7\"\x7d" ⟨"", "", "", "", 3, "", "7"⟩ (by decide)).2.2.2⟩

/-- C2, evaluated where uniqueness fails: two POSTs on the empty store that both read the
clock value 1000 are both answered 201, and the store then holds one record, the second
player, under the identifier `1000`; the first player is gone. -/
theorem same_clock_overwrites :
    (serve players [] (createRequest "\x7b\"firstname\":\"Ann\"\x7d") ⟨1000, 0, 0⟩).w.status
      = 201 ∧
    (serve players
        (serve players [] (createRequest "\x7b\"firstname\":\"Ann\"\x7d") ⟨1000, 0, 0⟩).h.store
        (createRequest "\x7b\"firstname\":\"Bob\"\x7d") ⟨1000, 0, 0⟩).w.status = 201 ∧
    (serve players
        (serve players [] (createRequest "\x7b\"firstname\":\"Ann\"\x7d") ⟨1000, 0, 0⟩).h.store
        (createRequest "\x7b\"firstname\":\"Bob\"\x7d") ⟨1000, 0, 0⟩).h.store
      = [("1000", ⟨"Bob", "", "", "", 0, "", "1000"⟩)] := by
  decide

/-- C3, Get by id: a request to `getPlayer` leaves the store as it was; a URL that does not
split on `/` into four parts is answered 404 with an empty body; with four parts and a
fourth part other than `random`, the answer is 200 with the encoding of the stored record
when the fourth part is a key, and 404 with an empty body when it is not; in particular
every identifier is answered 404 on the empty store. -/
theorem getPlayer_by_id (store : Store) (r : Request) (env : Env) :
    (serve getPlayer store r env).h.store = store ∧
    ((strings.Split r.URL '/').length ≠ 4 →
      (serve getPlayer store r env).w.status = 404 ∧
      (serve getPlayer store r env).w.body = "") ∧
    ((strings.Split r.URL '/').length = 4 →
      (strings.Split r.URL '/').getD 3 "" ≠ "random" →
      (∀ p, mapLoad store ((strings.Split r.URL '/').getD 3 "") = some p →
        (serve getPlayer store r env).w.status = 200 ∧
        (serve getPlayer store r env).w.body = encodePlayer p) ∧
      (mapLoad store ((strings.Split r.URL '/').getD 3 "") = none →
        (serve getPlayer store r env).w.status = 404 ∧
        (serve getPlayer store r env).w.body = "")) ∧
    (∀ id, r.URL = playerPath id → '/' ∉ id.data → id ≠ "random" → store = [] →
      (serve getPlayer store r env).w.status = 404 ∧
      (serve getPlayer store r env).w.body = "") := by
  have hlook : (strings.Split r.URL '/').length = 4 →
      (strings.Split r.URL '/').getD 3 "" ≠ "random" →
      (∀ p, mapLoad store ((strings.Split r.URL '/').getD 3 "") = some p →
        (serve getPlayer store r env).w.status = 200 ∧
        (serve getPlayer store r env).w.body = encodePlayer p) ∧
      (mapLoad store ((strings.Split r.URL '/').getD 3 "") = none →
        (serve getPlayer store r env).w.status = 404 ∧
        (serve getPlayer store r env).w.body = "") := by
    intro h4 hid
    have h := getPlayer_lookup store r env h4 hid
    constructor
    · intro p hp
      rw [hp] at h
      rw [serve_of_wrote _ _ _ _ (by rw [h]), h]
      exact ⟨rfl, rfl⟩
    · intro hp
      rw [hp] at h
      rw [serve_of_wrote _ _ _ _ (by rw [h]), h]
      exact ⟨rfl, rfl⟩
  refine ⟨?_, ?_, hlook, ?_⟩
  · rw [serve_store, getPlayer_store]
  · intro h4
    have h := getPlayer_malformed store r env h4
    rw [serve_of_wrote _ _ _ _ (by rw [h]), h]
    exact ⟨rfl, rfl⟩
  · intro id hurl hslash hid hempty
    have hparts := split_playerPath id hslash
    rw [← hurl] at hparts
    have h4 : (strings.Split r.URL '/').length = 4 := by rw [hparts]; rfl
    have h3 : (strings.Split r.URL '/').getD 3 "" = id := by rw [hparts]; rfl
    refine (hlook h4 (by rw [h3]; exact hid)).2 ?_
    rw [hempty]; rfl

/-- C3 at concrete inputs: `GET /v1/players/doesnotexist` on the empty store is answered 404
with an empty body, and `GET /v1/players/7` on a store holding a record under `7` is
answered 200 with that record. -/
theorem getPlayer_by_id_witness :
    ((serve getPlayer [] (fetchRequest "doesnotexist") ⟨0, 0, 0⟩).w.status = 404 ∧
      (serve getPlayer [] (fetchRequest "doesnotexist") ⟨0, 0, 0⟩).w.body = "") ∧
    ((serve getPlayer [("7", ⟨"Ann", "", "", "", 3, "", "7"⟩)] (fetchRequest "7")
        ⟨0, 0, 0⟩).w.status = 200 ∧
      (serve getPlayer [("7", ⟨"Ann", "", "", "", 3, "", "7"⟩)] (fetchRequest "7")
        ⟨0, 0, 0⟩).w.body = encodePlayer ⟨"Ann", "", "", "", 3, "", "7"⟩) :=
  ⟨(getPlayer_by_id [] (fetchRequest "doesnotexist") ⟨0, 0, 0⟩).2.2.2 "doesnotexist" rfl
      (by decide) (by decide) rfl,
   ((getPlayer_by_id [("7", ⟨"Ann", "", "", "", 3, "", "7"⟩)] (fetchRequest "7")
      ⟨0, 0, 0⟩).2.2.1 (by decide) (by decide)).1 ⟨"Ann", "", "", "", 3, "", "7"⟩ (by decide)⟩

/-- C4, ListAll returns every record: on any store `GET /v1/players` answers 200 and leaves
the store as it was; the body is the encoding of a list that is a rearrangement of the
stored records (each one once, nothing else, as many as the store holds), `[]` for the
empty store; and after a POST answered 201 on the empty store the list holds the one
posted player under a non-empty identifier. -/
theorem list_all (store : Store) (env : Env) :
    (serve players store listRequest env).w.status = 200 ∧
    (serve players store listRequest env).h.store = store ∧
    (∃ listed : List Player, listed.Perm (store.map Prod.snd) ∧
      listed.length = store.length ∧
      (serve players store listRequest env).w.body = encodePlayers listed) ∧
    (store = [] → (serve players store listRequest env).w.body = "[]") ∧
    (∀ (body : String) (p : Player) (env1 : Env),
      json.Unmarshal body Player.zero = (p, none) →
      (serve players [] (createRequest body) env1).w.status = 201 ∧
      (serve players (serve players [] (createRequest body) env1).h.store listRequest
          env).w.body
        = encodePlayers [{ p with ID := formatInt env1.now }] ∧
      formatInt env1.now ≠ "") := by
  have hget : ∀ st : Store, serve players st listRequest env =
      ⟨⟨st⟩, ⟨jsonHeaders, true, 200, jsonHeaders,
          encodePlayers ((mapRange st env.order).map Prod.snd)⟩,
        [Event.mapLen, Event.lock, Event.mapRange, Event.unlock]⟩ := by
    intro st
    have h := get_result st listRequest env
    rw [serve_of_wrote _ _ _ _ (by rw [players_get _ _ _ rfl, h]), players_get _ _ _ rfl, h]
  refine ⟨by rw [hget], by rw [hget], ?_, ?_, ?_⟩
  · refine ⟨(mapRange store env.order).map Prod.snd, (mapRange_perm store env.order).map _,
      ?_, ?_⟩
    · simp [mapRange_length]
    · rw [hget]
  · intro hs
    subst hs
    rw [hget]
    have hnil : mapRange [] env.order = [] := List.perm_nil.1 (mapRange_perm _ _)
    simp only [hnil]
    decide
  · intro body p env1 hdec
    have hpost := post_created [] (createRequest body) env1 p rfl rfl hdec
    have hserve : serve players [] (createRequest body) env1
        = post ⟨⟨[]⟩, ResponseWriter.new, []⟩ (createRequest body) env1 := by
      rw [serve_of_wrote _ _ _ _ (by rw [players_post _ _ _ rfl, hpost]), players_post _ _ _ rfl]
    rw [hserve, hpost, hget]
    refine ⟨rfl, ?_, formatInt_ne_empty _⟩
    have hsingle : mapRange [(formatInt env1.now, { p with ID := formatInt env1.now })] env.order
        = [(formatInt env1.now, { p with ID := formatInt env1.now })] :=
      List.perm_singleton.1 (mapRange_perm _ _)
    simp [mapStore, hsingle]

/-- C4 at a concrete input: after a POST of a player named Jane at clock reading 1000 on the
empty store, the list is the one record of Jane under identifier `1000`. -/
theorem list_all_witness :
    (serve players
        (serve players [] (createRequest "\x7b\"firstname\":\"Jane\"\x7d") ⟨1000, 0, 0⟩).h.store
        listRequest ⟨0, 5, 0⟩).w.body
      = encodePlayers [⟨"Jane", "", "", "", 0, "", formatInt 1000⟩] :=
  ((list_all [] ⟨0, 5, 0⟩).2.2.2.2 "\x7b\"firstname\":\"Jane\"\x7d"
    ⟨"Jane", "", "", "", 0, "", ""⟩ ⟨1000, 0, 0⟩ (by decide)).2.1

/-- C5, PickRandom: whatever the order of the map walk and the number drawn,
`GET /v1/players/random` leaves the store as it was, answers 404 on the empty store, and
otherwise answers 302 with one location header, `/v1/players/` followed by a key of the
store; with exactly one player, under `X`, the location is `/v1/players/X`. -/
theorem random_player (store : Store) (env : Env) :
    (serve getPlayer store randomRequest env).h.store = store ∧
    (store = [] → (serve getPlayer store randomRequest env).w.status = 404) ∧
    (store ≠ [] →
      (serve getPlayer store randomRequest env).w.status = 302 ∧
      ∃ id ∈ mapKeys store,
        Header.values (serve getPlayer store randomRequest env).w.sent "location"
          = ["/v1/players/" ++ id]) ∧
    (∀ (X : String) (p : Player), store = [(X, p)] →
      (serve getPlayer store randomRequest env).w.status = 302 ∧
      Header.get (serve getPlayer store randomRequest env).w.sent "location"
        = "/v1/players/" ++ X) := by
  have hroute : getPlayer ⟨⟨store⟩, ResponseWriter.new, []⟩ randomRequest env
      = getRandomPlayer ⟨⟨store⟩, ResponseWriter.new, []⟩ randomRequest env :=
    getPlayer_random store randomRequest env (by decide) (by decide)
  have hne : ∀ st : Store, st ≠ [] → serve getPlayer st randomRequest env =
      ⟨⟨st⟩, ⟨[("Location", playerPath (pickedId st env)), ("Access-Control-Allow-Origin", "*")],
          true, 302,
          [("Location", playerPath (pickedId st env)), ("Access-Control-Allow-Origin", "*")],
          ""⟩,
        [Event.mapLen, Event.lock, Event.mapRange, Event.unlock]⟩ := by
    intro st hst
    have hr : getPlayer ⟨⟨st⟩, ResponseWriter.new, []⟩ randomRequest env
        = getRandomPlayer ⟨⟨st⟩, ResponseWriter.new, []⟩ randomRequest env :=
      getPlayer_random st randomRequest env (by decide) (by decide)
    have h := getRandomPlayer_nonempty st randomRequest env hst
    rw [serve_of_wrote _ _ _ _ (by rw [hr, h]), hr, h]
  have hval : ∀ path : String,
      Header.values [("Location", path), ("Access-Control-Allow-Origin", "*")] "location"
        = [path] := by
    intro path
    simp [Header.values]
  refine ⟨?_, ?_, ?_, ?_⟩
  · rw [serve_store, getPlayer_store]
  · intro hs
    subst hs
    have h := getRandomPlayer_empty randomRequest env
    rw [serve_of_wrote _ _ _ _ (by rw [hroute, h]), hroute, h]
  · intro hs
    rw [hne store hs]
    exact ⟨rfl, pickedId store env, pickedId_mem store env hs, by
      simp only [hval, playerPath_eq]⟩
  · intro X p hs
    have hs2 : store ≠ [] := by rw [hs]; simp
    rw [hne store hs2]
    refine ⟨rfl, ?_⟩
    have hsingle : mapRange [(X, p)] env.order = [(X, p)] :=
      List.perm_singleton.1 (mapRange_perm _ _)
    have hpick : pickedId store env = X := by
      simp [pickedId, hs, hsingle]
    simp only [Header.get, hval, hpick, playerPath_eq, List.headD_cons]

/-- C5 at a concrete input: with one player under `X`, whatever is drawn, the answer is 302
with location `/v1/players/X`. -/
theorem random_player_witness :
    (serve getPlayer [("X", Player.zero)] randomRequest ⟨0, 3, 8⟩).w.status = 302 ∧
    Header.get (serve getPlayer [("X", Player.zero)] randomRequest ⟨0, 3, 8⟩).w.sent "location"
      = "/v1/players/" ++ "X" :=
  (random_player [("X", Player.zero)] ⟨0, 3, 8⟩).2.2.2 "X" Player.zero rfl

/-- C6, atomicity of Create: a POST to `/v1/players` is answered 201, 500, 415 or 400 (500
when reading the body failed, 415 for a content type other than `application/json`, 400
when the body does not decode); when the status is not 201 the store is what it was; when
it is 201 the assigned identifier is a key and every other key maps to what it mapped to
before. -/
theorem create_atomic (store : Store) (url ct body : String) (err : Option String) (env : Env) :
    ((serve players store ⟨"POST", url, ct, body, err⟩ env).w.status = 201 ∨
      (serve players store ⟨"POST", url, ct, body, err⟩ env).w.status = 500 ∨
      (serve players store ⟨"POST", url, ct, body, err⟩ env).w.status = 415 ∨
      (serve players store ⟨"POST", url, ct, body, err⟩ env).w.status = 400) ∧
    ((serve players store ⟨"POST", url, ct, body, err⟩ env).w.status ≠ 201 →
      (serve players store ⟨"POST", url, ct, body, err⟩ env).h.store = store) ∧
    ((serve players store ⟨"POST", url, ct, body, err⟩ env).w.status = 201 →
      (mapLoad (serve players store ⟨"POST", url, ct, body, err⟩ env).h.store
          (formatInt env.now)).isSome = true ∧
      ∀ k, k ≠ formatInt env.now →
        mapLoad (serve players store ⟨"POST", url, ct, body, err⟩ env).h.store k
          = mapLoad store k) ∧
    (err ≠ none → (serve players store ⟨"POST", url, ct, body, err⟩ env).w.status = 500) ∧
    (err = none → ct ≠ "application/json" →
      (serve players store ⟨"POST", url, ct, body, err⟩ env).w.status = 415) ∧
    (err = none → ct = "application/json" → (json.Unmarshal body Player.zero).2 ≠ none →
      (serve players store ⟨"POST", url, ct, body, err⟩ env).w.status = 400) := by
  have hserve : ∀ c : Call,
      post ⟨⟨store⟩, ResponseWriter.new, []⟩ ⟨"POST", url, ct, body, err⟩ env = c →
      c.w.wroteHeader = true → serve players store ⟨"POST", url, ct, body, err⟩ env = c := by
    intro c hc hw
    rw [serve_of_wrote _ _ _ _ (by rw [players_post _ _ _ rfl, hc]; exact hw),
      players_post _ _ _ rfl, hc]
  cases herr : err with
  | some e =>
    have h := hserve _ (post_read_error store ⟨"POST", url, ct, body, err⟩ env e herr) rfl
    rw [herr] at h
    rw [h]
    simp
  | none =>
    by_cases hct : ct = "application/json"
    · cases hdec : (json.Unmarshal body Player.zero).2 with
      | some e =>
        have h := hserve _
          (post_bad_request store ⟨"POST", url, ct, body, err⟩ env e herr hct hdec) rfl
        rw [herr] at h
        rw [h]
        simp [hct]
      | none =>
        have hpair : json.Unmarshal body Player.zero
            = ((json.Unmarshal body Player.zero).1, none) := by
          rw [← hdec]
        have h := hserve _
          (post_created store ⟨"POST", url, ct, body, err⟩ env _ herr hct hpair) rfl
        rw [herr] at h
        rw [h]
        refine ⟨Or.inl rfl, fun hne => absurd rfl hne, fun _ => ⟨?_, ?_⟩,
          fun hne => absurd rfl hne, fun _ hne => absurd hct hne, fun _ _ hne => absurd rfl hne⟩
        · rw [mapLoad_mapStore_self]; rfl
        · intro k hk
          exact mapLoad_mapStore_of_ne _ _ _ _ hk
    · have h := hserve _ (post_wrong_type store ⟨"POST", url, ct, body, err⟩ env herr hct) rfl
      rw [herr] at h
      rw [h]
      simp [hct]

/-- C6 at concrete inputs: a POST whose body is cut short leaves a store of one record as
it was, and a POST answered 201 at clock reading 1000 leaves the record under `7` as it
was. -/
theorem create_atomic_witness :
    (serve players [("7", Player.zero)]
        ⟨"POST", "/v1/players", "application/json", "\x7b", none⟩ ⟨1000, 0, 0⟩).h.store
      = [("7", Player.zero)] ∧
    mapLoad (serve players [("7", Player.zero)]
        ⟨"POST", "/v1/players", "application/json", "\x7b\x7d", none⟩ ⟨1000, 0, 0⟩).h.store "7"
      = mapLoad [("7", Player.zero)] "7" :=
  ⟨(create_atomic [("7", Player.zero)] "/v1/players" "application/json" "\x7b" none
      ⟨1000, 0, 0⟩).2.1 (by decide),
   ((create_atomic [("7", Player.zero)] "/v1/players" "application/json" "\x7b\x7d" none
      ⟨1000, 0, 0⟩).2.2.1 (by decide)).2 "7" (by decide)⟩

/-- C7, evaluated where the guard is missed: serving `GET /v1/players` and
`GET /v1/players/random` reads the size of the map before the guard is taken, so the logs
of `get` and `getRandomPlayer` break the guard discipline; the logs of the lookup in
`getPlayer` and of `post` keep it. -/
theorem size_read_outside_guard :
    (serve players [] listRequest ⟨0, 0, 0⟩).log
      = [Event.mapLen, Event.lock, Event.mapRange, Event.unlock] ∧
    guarded false (serve players [] listRequest ⟨0, 0, 0⟩).log = false ∧
    (serve getPlayer [] randomRequest ⟨0, 0, 0⟩).log
      = [Event.mapLen, Event.lock, Event.mapRange, Event.unlock] ∧
    guarded false (serve getPlayer [] randomRequest ⟨0, 0, 0⟩).log = false ∧
    guarded false (serve getPlayer [] (fetchRequest "7") ⟨0, 0, 0⟩).log = true ∧
    guarded false (serve players [] (createRequest "\x7b\x7d") ⟨0, 0, 0⟩).log = true := by
  decide

/-- C8, evaluated where the header is missing: `GET /v1/players/doesnotexist` on the empty
store is answered 404 and a POST with a body cut short is answered 400, both without
the header `Access-Control-Allow-Origin`; the 404 of `GET /v1/players/random` carries it. -/
theorem not_found_without_cors :
    (serve getPlayer [] (fetchRequest "doesnotexist") ⟨0, 0, 0⟩).w.status = 404 ∧
    Header.values (serve getPlayer [] (fetchRequest "doesnotexist") ⟨0, 0, 0⟩).w.sent corsHeader
      = [] ∧
    (serve players [] (createRequest "\x7b") ⟨0, 0, 0⟩).w.status = 400 ∧
    Header.values (serve players [] (createRequest "\x7b") ⟨0, 0, 0⟩).w.sent corsHeader = [] ∧
    (serve getPlayer [] randomRequest ⟨0, 0, 0⟩).w.status = 404 ∧
    Header.values (serve getPlayer [] randomRequest ⟨0, 0, 0⟩).w.sent corsHeader = ["*"] := by
  decide

/-- C9, wrong content type: a POST to `/v1/players` whose body was read and whose content
type is not exactly `application/json` is answered 415 with the body
`need content type application/json, got ` followed by the content type; the store is what
it was and the answer is the same whatever the request body holds. -/
theorem wrong_content_type (store : Store) (url ct body : String) (env : Env)
    (hct : ct ≠ "application/json") :
    (serve players store ⟨"POST", url, ct, body, none⟩ env).w.status = 415 ∧
    (serve players store ⟨"POST", url, ct, body, none⟩ env).w.body
      = "need content type application/json, got " ++ ct ∧
    (serve players store ⟨"POST", url, ct, body, none⟩ env).h.store = store ∧
    ∀ other : String,
      serve players store ⟨"POST", url, ct, other, none⟩ env
        = serve players store ⟨"POST", url, ct, body, none⟩ env := by
  have hserve : ∀ b : String, serve players store ⟨"POST", url, ct, b, none⟩ env =
      ⟨⟨store⟩, ⟨corsOnly, true, 415, corsOnly,
        "need content type application/json, got " ++ ct⟩, []⟩ := by
    intro b
    have h := post_wrong_type store ⟨"POST", url, ct, b, none⟩ env rfl hct
    rw [serve_of_wrote _ _ _ _ (by rw [players_post _ _ _ rfl, h]), players_post _ _ _ rfl, h]
  refine ⟨by rw [hserve], by rw [hserve], by rw [hserve], ?_⟩
  intro other
  rw [hserve, hserve]

/-- C9 at concrete inputs: content types `text/plain`, the empty string and
`application/json; charset=utf-8` are answered 415 with the message naming them. -/
theorem wrong_content_type_witness :
    ((serve players [] ⟨"POST", "/v1/players", "text/plain", "\x7b\x7d", none⟩
        ⟨0, 0, 0⟩).w.status = 415 ∧
      (serve players [] ⟨"POST", "/v1/players", "text/plain", "\x7b\x7d", none⟩
        ⟨0, 0, 0⟩).w.body = "need content type application/json, got " ++ "text/plain") ∧
    (serve players [] ⟨"POST", "/v1/players", "", "\x7b\x7d", none⟩ ⟨0, 0, 0⟩).w.status = 415 ∧
    (serve players [] ⟨"POST", "/v1/players", "application/json; charset=utf-8", "\x7b\x7d",
        none⟩ ⟨0, 0, 0⟩).w.status = 415 :=
  ⟨⟨(wrong_content_type [] "/v1/players" "text/plain" "\x7b\x7d" ⟨0, 0, 0⟩ (by decide)).1,
    (wrong_content_type [] "/v1/players" "text/plain" "\x7b\x7d" ⟨0, 0, 0⟩ (by decide)).2.1⟩,
   (wrong_content_type [] "/v1/players" "" "\x7b\x7d" ⟨0, 0, 0⟩ (by decide)).1,
   (wrong_content_type [] "/v1/players" "application/json; charset=utf-8" "\x7b\x7d"
      ⟨0, 0, 0⟩ (by decide)).1⟩

/-- C10, evaluated where a required field is missing: a POST to `/v1/players` with content
type `application/json` and the body of an empty object is answered 201, and the store
then holds a player whose fields are all empty under the identifier `1000`. -/
theorem empty_object_accepted :
    (serve players [] (createRequest "\x7b\x7d") ⟨1000, 0, 0⟩).w.status = 201 ∧
    (serve players [] (createRequest "\x7b\x7d") ⟨1000, 0, 0⟩).h.store
      = [("1000", ⟨"", "", "", "", 0, "", "1000"⟩)] := by
  decide

end PlayerAPI
